import Mathlib

/-!
# Verification of the `integral_io` narrowing text-I/O layer

Shallow embedding of `src/integral_io.hpp`: the width-classification trait,
the one-byte output wrappers, and the bounds-checked narrowing input paths
for one-byte signed and unsigned integer targets.

Machine integers are modelled as `Int` with explicit modular reduction where
the C++ source performs a conversion (`static_cast`) or arithmetic in a
fixed-width type.  Text is modelled as a list of character codes
(`List Nat`), so that a decimal numeral such as "65" is `[54, 53]` and the
glyph 'A' is `[65]`.

The external text-reading/writing collaborator (the standard stream) is not
part of the repository; it is modelled from the spec (see `streamRead` and
`streamWrite` below).
-/

/-- Compile-time integer type descriptor: byte width and signedness
(§3 "Integer Type Descriptor"). -/
structure CIntType where
  size : Nat
  signed : Bool
deriving DecidableEq

/-- Embeds the `integral_io_trait` template (src/integral_io.hpp lines 12-30):
the generic trait maps any integral type wider than one byte to itself; the
two specialisations map one-byte signed types to `std::int16_t` (16-bit
signed) and one-byte unsigned types to `std::uint16_t` (16-bit unsigned). -/
def integral_io_trait (T : CIntType) : CIntType :=
  if T.size = 1 then
    (if T.signed then ⟨2, true⟩ else ⟨2, false⟩)
  else T

/-- `static_cast<std::int8_t>` / `signed char` conversion: reduce modulo 2^8
into the signed range [-128, 127]. -/
def toInt8 (v : Int) : Int :=
  if v % 256 < 128 then v % 256 else v % 256 - 256

/-- `static_cast<std::int16_t>` conversion: reduce modulo 2^16 into the
signed range [-32768, 32767]. -/
def toInt16 (v : Int) : Int :=
  if v % 65536 < 32768 then v % 65536 else v % 65536 - 65536

/-- `static_cast<std::uint16_t>` conversion: reduce modulo 2^16 into
[0, 65535]. -/
def toUInt16 (v : Int) : Int :=
  v % 65536

/-- C++ `int` (32-bit) arithmetic result: reduce modulo 2^32 into the signed
range.  Used to model the implicit integral promotion in expressions such as
`temp * -1`. -/
def toInt32 (v : Int) : Int :=
  if v % 4294967296 < 2147483648 then v % 4294967296 else v % 4294967296 - 4294967296

/-- Little-endian decimal digits of `n`, with explicit fuel (the fuel `n`
itself is always enough since the value shrinks by a factor of 10 per
digit). -/
def revDigits : Nat → Nat → List Nat
  | 0, _ => []
  | fuel + 1, n => if n = 0 then [] else (n % 10) :: revDigits fuel (n / 10)

/-- Value denoted by a little-endian list of decimal digits. -/
def valOfRevDigits : List Nat → Nat
  | [] => 0
  | d :: rest => d + 10 * valOfRevDigits rest

/-- Decimal numeral of a natural number, as a list of character codes
(code 48 = '0' ... code 57 = '9'). -/
def formatNat (n : Nat) : List Nat :=
  if n = 0 then [48] else (revDigits n n).reverse.map (fun d => 48 + d)

/-- Decimal numeral of an integer: an optional leading '-' (code 45)
followed by the numeral of the magnitude. -/
def formatInt (v : Int) : List Nat :=
  if v < 0 then 45 :: formatNat v.natAbs else formatNat v.toNat

/-- Is `c` the character code of a decimal digit? -/
def isDigitCode (c : Nat) : Bool :=
  Nat.ble 48 c && Nat.ble c 57

/-- Parse a non-empty string of decimal digit codes into a natural number;
`none` on any other text. -/
def parseNatText (t : List Nat) : Option Nat :=
  match t with
  | [] => none
  | _ =>
    if t.all isDigitCode then
      some (valOfRevDigits ((t.map (fun c => c - 48)).reverse))
    else none

/-- Parse decimal text with an optional leading '-' sign into an integer;
`none` on malformed text. -/
def parseDecimal (t : List Nat) : Option Int :=
  match t with
  | [] => none
  | c :: rest =>
    if c = 45 then
      (match parseNatText rest with
       | none => none
       | some n => some (-(n : Int)))
    else
      (match parseNatText (c :: rest) with
       | none => none
       | some n => some ((n : Int)))

/-- Modelled from the spec: the external Text Sink (§6) renders a value of
an integral type as its decimal text.  The repository delegates all actual
formatting to this collaborator. -/
def streamWrite (v : Int) : List Nat :=
  formatInt v

/-- Modelled from the spec: the external Text Source (§6) reads decimal text
into an integral type with range [`lo`, `hi`], signalling failure via a
settable indicator.  Conventional stream semantics: malformed text yields
value 0 with failure; out-of-range text clamps to the nearest bound with
failure; otherwise the value is stored exactly with no failure. -/
def streamRead (lo hi : Int) (t : List Nat) : Int × Bool :=
  match parseDecimal t with
  | none => (0, true)
  | some n =>
    if n < lo then (lo, true)
    else if hi < n then (hi, true)
    else (n, false)

/-- Embeds `integral_output_wrapper<Integer, Integer, 1>::output`
(lines 67-71) for a one-byte unsigned `Integer`: the value is cast to the
trait's promoted type (`std::uint16_t`) and handed to the text sink. -/
def integral_output_wrapper_1_output_u (v : Int) : List Nat :=
  streamWrite (toUInt16 v)

/-- Embeds `integral_output_wrapper<Integer, Integer, 1>::output`
(lines 67-71) for a one-byte signed `Integer`: the value is cast to the
trait's promoted type (`std::int16_t`) and handed to the text sink. -/
def integral_output_wrapper_1_output_s (v : Int) : List Nat :=
  streamWrite (toInt16 v)

/-- Embeds `integral_io_wrapper<Integer, Integer, 1, true>::output`
(lines 113-117): the one-byte signed value is cast to `std::int16_t` and
handed to the text sink. -/
def integral_io_wrapper_s1_output (v : Int) : List Nat :=
  streamWrite (toInt16 v)

/-- Embeds `integral_io_wrapper<Integer, Integer, 1, false>::output`
(lines 156-160): the one-byte unsigned value is cast to `std::int16_t`
(not through the trait) and handed to the text sink. -/
def integral_io_wrapper_u1_output (v : Int) : List Nat :=
  streamWrite (toInt16 v)

/-- Embeds the narrowing branch structure of
`integral_io_wrapper<Integer, Integer, 1, true>::input` (lines 126-139),
acting on the already-read promoted buffer `temp`.  For every one-byte
signed `Integer`, `numeric_limits` gives max = 127 and min = -128.
Returns the value written to `m_value` and whether `failbit` is set by this
step. -/
def sbyteNarrow (temp : Int) : Int × Bool :=
  if temp > 127 then (127, true)
  else if temp < -128 then (-128, true)
  else (toInt8 temp, false)

/-- Embeds the narrowing branch structure of
`integral_io_wrapper<Integer, Integer, 1, false>::input` (lines 172-194),
acting on the already-read promoted buffer `temp`.  For every one-byte
unsigned `Integer`, `numeric_limits` gives max = 255.  The magnitude
`temp * -1` and the wraparound sum `max + temp + 1` are evaluated in C++
`int` after integral promotion, hence the `toInt32`; the `static_cast` back
to the unsigned one-byte `Integer` is the reduction `% 256`. -/
def ubyteNarrow (temp : Int) : Int × Bool :=
  if temp > 255 then (255, true)
  else if temp < 0 then
    (if toInt32 (temp * (-1)) ≤ 255 then ((toInt32 (255 + temp + 1)) % 256, false)
     else (255, true))
  else (temp % 256, false)

/-- Embeds `integral_io_wrapper<Integer, Integer, 1, true>::input`
(lines 119-140): read a `std::int16_t` buffer from the text source, then
narrow.  Every path assigns `m_value`, so the result does not depend on the
previous contents `_old` of the target location; the final failure state is
the stream's extraction failure or-ed with the narrowing step's. -/
def integral_io_wrapper_s1_input (_old : Int) (t : List Nat) : Int × Bool :=
  ((sbyteNarrow (streamRead (-32768) 32767 t).1).1,
   (streamRead (-32768) 32767 t).2 || (sbyteNarrow (streamRead (-32768) 32767 t).1).2)

/-- Embeds `integral_io_wrapper<Integer, Integer, 1, false>::input`
(lines 162-195): read a signed `std::int16_t` buffer from the text source,
then narrow with the wraparound policy.  Every path assigns `m_value`, so
the result does not depend on the previous contents `_old` of the target
location. -/
def integral_io_wrapper_u1_input (_old : Int) (t : List Nat) : Int × Bool :=
  ((ubyteNarrow (streamRead (-32768) 32767 t).1).1,
   (streamRead (-32768) 32767 t).2 || (ubyteNarrow (streamRead (-32768) 32767 t).1).2)

/-- Embeds the generic `integral_io_wrapper::output` (lines 87-91) for an
integral type wider than one byte: direct delegation to the text sink. -/
def integral_io_wrapper_wide_output (v : Int) : List Nat :=
  streamWrite v

/-- Embeds the generic `integral_io_wrapper::input` (lines 93-97) for an
integral type wider than one byte with range [`lo`, `hi`]: direct delegation
to the text source, which writes the target location on every path. -/
def integral_io_wrapper_wide_input (lo hi : Int) (_old : Int) (t : List Nat) : Int × Bool :=
  streamRead lo hi t

/-! ## Helper lemmas: cast identities -/

theorem toInt8_eq_self (v : Int) (h1 : -128 ≤ v) (h2 : v ≤ 127) : toInt8 v = v := by
  unfold toInt8; omega

theorem toInt16_eq_self (v : Int) (h1 : -32768 ≤ v) (h2 : v ≤ 32767) : toInt16 v = v := by
  unfold toInt16; omega

theorem toUInt16_eq_self (v : Int) (h1 : 0 ≤ v) (h2 : v ≤ 65535) : toUInt16 v = v := by
  unfold toUInt16; omega

theorem toInt32_eq_self (v : Int) (h1 : -2147483648 ≤ v) (h2 : v ≤ 2147483647) :
    toInt32 v = v := by
  unfold toInt32; omega

/-! ## Helper lemmas: decimal numeral round-trip -/

theorem revDigits_zero (fuel : Nat) : revDigits fuel 0 = [] := by
  cases fuel <;> rfl

theorem valOfRevDigits_revDigits (fuel n : Nat) (h : n ≤ fuel) :
    valOfRevDigits (revDigits fuel n) = n := by
  induction fuel generalizing n with
  | zero =>
    have hn : n = 0 := Nat.le_zero.mp h
    subst hn; rfl
  | succ fuel ih =>
    by_cases hn : n = 0
    · subst hn; rfl
    · have hlt : n / 10 < n := Nat.div_lt_self (Nat.pos_of_ne_zero hn) (by omega)
      have hle : n / 10 ≤ fuel := by omega
      simp only [revDigits, hn, if_false, valOfRevDigits, ih (n / 10) hle]
      omega

theorem revDigits_mem_lt (fuel n d : Nat) (h : d ∈ revDigits fuel n) : d < 10 := by
  induction fuel generalizing n with
  | zero => simp [revDigits] at h
  | succ fuel ih =>
    by_cases hn : n = 0
    · subst hn; simp [revDigits] at h
    · simp only [revDigits, hn, if_false, List.mem_cons] at h
      rcases h with h | h
      · subst h; exact Nat.mod_lt n (by omega)
      · exact ih (n / 10) h

theorem revDigits_ne_nil (fuel n : Nat) (hn : n ≠ 0) (hf : fuel ≠ 0) :
    revDigits fuel n ≠ [] := by
  cases fuel with
  | zero => exact absurd rfl hf
  | succ fuel => simp [revDigits, hn]

theorem formatNat_mem_bounds (n c : Nat) (h : c ∈ formatNat n) : 48 ≤ c ∧ c ≤ 57 := by
  unfold formatNat at h
  by_cases hn : n = 0
  · simp [hn] at h; omega
  · simp only [hn, if_false, List.mem_map, List.mem_reverse] at h
    obtain ⟨d, hd, rfl⟩ := h
    have := revDigits_mem_lt n n d hd
    omega

theorem formatNat_ne_nil (n : Nat) : formatNat n ≠ [] := by
  unfold formatNat
  by_cases hn : n = 0
  · simp [hn]
  · simp only [hn, if_false, ne_eq, List.map_eq_nil_iff, List.reverse_eq_nil_iff]
    exact revDigits_ne_nil n n hn hn

theorem parseNatText_cons (c : Nat) (rest : List Nat) :
    parseNatText (c :: rest) =
      (if (c :: rest).all isDigitCode then
        some (valOfRevDigits (((c :: rest).map (fun x => x - 48)).reverse))
      else none) := rfl

theorem parseDecimal_cons (c : Nat) (rest : List Nat) :
    parseDecimal (c :: rest) =
      (if c = 45 then
        (match parseNatText rest with
         | none => none
         | some n => some (-(n : Int)))
      else
        (match parseNatText (c :: rest) with
         | none => none
         | some n => some ((n : Int)))) := rfl

theorem parseNatText_formatNat (n : Nat) : parseNatText (formatNat n) = some n := by
  obtain ⟨c, rest, hcr⟩ := List.exists_cons_of_ne_nil (formatNat_ne_nil n)
  have hall : (formatNat n).all isDigitCode = true := by
    rw [List.all_eq_true]
    intro c hc
    have hb := formatNat_mem_bounds n c hc
    simp only [isDigitCode, Bool.and_eq_true, Nat.ble_eq]
    omega
  have hdec : (((formatNat n).map (fun x => x - 48)).reverse) =
      (if n = 0 then [0] else revDigits n n) := by
    unfold formatNat
    by_cases hn : n = 0
    · simp [hn]
    · simp only [hn, if_false, List.map_map, List.reverse_reverse]
      have : ((fun x => x - 48) ∘ fun d => 48 + d) = id := by
        funext d; simp
      rw [← List.map_reverse, List.reverse_reverse, this, List.map_id]
  rw [hcr, parseNatText_cons, ← hcr, hall, if_pos rfl, hdec]
  by_cases hn : n = 0
  · simp [hn, valOfRevDigits]
  · rw [if_neg hn, valOfRevDigits_revDigits n n (Nat.le_refl n)]

theorem parseDecimal_formatInt (v : Int) : parseDecimal (formatInt v) = some v := by
  by_cases hv : v < 0
  · unfold formatInt
    rw [if_pos hv, parseDecimal_cons, if_pos rfl, parseNatText_formatNat]
    exact congrArg some (by omega : -((v.natAbs : Nat) : Int) = v)
  · unfold formatInt
    rw [if_neg hv]
    obtain ⟨c, rest, hcr⟩ := List.exists_cons_of_ne_nil (formatNat_ne_nil v.toNat)
    have hc48 : 48 ≤ c := by
      have : c ∈ formatNat v.toNat := by rw [hcr]; exact List.mem_cons_self c rest
      exact (formatNat_mem_bounds v.toNat c this).1
    rw [hcr, parseDecimal_cons, if_neg (by omega), ← hcr, parseNatText_formatNat]
    exact congrArg some (by omega : ((v.toNat : Nat) : Int) = v)

theorem streamRead_some (lo hi b : Int) (t : List Nat) (h : parseDecimal t = some b) :
    streamRead lo hi t =
      (if b < lo then (lo, true) else if hi < b then (hi, true) else (b, false)) := by
  unfold streamRead
  rw [h]

theorem streamRead_none (lo hi : Int) (t : List Nat) (h : parseDecimal t = none) :
    streamRead lo hi t = (0, true) := by
  unfold streamRead
  rw [h]

theorem streamRead_streamWrite (lo hi v : Int) (h1 : lo ≤ v) (h2 : v ≤ hi) :
    streamRead lo hi (streamWrite v) = (v, false) := by
  rw [streamRead_some lo hi v (streamWrite v) (parseDecimal_formatInt v)]
  rw [if_neg (by omega), if_neg (by omega)]

/-! ## Helper lemmas: the one-byte input paths as functions of the parsed value -/

theorem parseDecimal_streamWrite (v : Int) : parseDecimal (streamWrite v) = some v :=
  parseDecimal_formatInt v

theorem s1_input_parsed (old b : Int) (t : List Nat) (hp : parseDecimal t = some b) :
    integral_io_wrapper_s1_input old t =
      (if 127 < b then (127, true)
       else if b < -128 then (-128, true)
       else (b, false)) := by
  unfold integral_io_wrapper_s1_input
  rw [streamRead_some (-32768) 32767 b t hp]
  unfold sbyteNarrow toInt8
  split_ifs <;> simp_all [Prod.mk.injEq] <;> omega

theorem ubyteNarrow_parsed (b : Int) (h1 : -32768 ≤ b) (h2 : b ≤ 32767) :
    ubyteNarrow b =
      (if 255 < b then (255, true)
       else if b < -255 then (255, true)
       else if b < 0 then (256 + b, false)
       else (b, false)) := by
  have hm : toInt32 (b * (-1)) = -b := by
    rw [show b * (-1) = -b by ring]
    exact toInt32_eq_self (-b) (by omega) (by omega)
  have hw : toInt32 (255 + b + 1) = 255 + b + 1 :=
    toInt32_eq_self (255 + b + 1) (by omega) (by omega)
  unfold ubyteNarrow
  rw [hm, hw]
  split_ifs <;> simp only [Prod.mk.injEq] <;>
    first
      | (exfalso; omega)
      | exact ⟨by omega, by trivial⟩

theorem u1_input_parsed (old b : Int) (t : List Nat) (hp : parseDecimal t = some b) :
    integral_io_wrapper_u1_input old t =
      (if 255 < b then (255, true)
       else if b < -255 then (255, true)
       else if b < 0 then (256 + b, false)
       else (b, false)) := by
  unfold integral_io_wrapper_u1_input
  rw [streamRead_some (-32768) 32767 b t hp]
  by_cases h1 : b < -32768
  · rw [if_pos h1]
    have hn : ubyteNarrow (-32768) = (255, true) := by decide
    rw [if_neg (by omega : ¬ (255:Int) < b), if_pos (by omega : b < -255)]
    simp [hn]
  · rw [if_neg h1]
    by_cases h2 : (32767:Int) < b
    · rw [if_pos h2]
      have hn : ubyteNarrow 32767 = (255, true) := by decide
      rw [if_pos (by omega : (255:Int) < b)]
      simp [hn]
    · rw [if_neg h2]
      dsimp only
      rw [ubyteNarrow_parsed b (by omega) (by omega)]
      split_ifs <;> simp

theorem s1_input_malformed (old : Int) (t : List Nat) (hp : parseDecimal t = none) :
    integral_io_wrapper_s1_input old t = (0, true) := by
  unfold integral_io_wrapper_s1_input
  rw [streamRead_none (-32768) 32767 t hp]
  simp [sbyteNarrow, toInt8]

theorem u1_input_malformed (old : Int) (t : List Nat) (hp : parseDecimal t = none) :
    integral_io_wrapper_u1_input old t = (0, true) := by
  unfold integral_io_wrapper_u1_input
  rw [streamRead_none (-32768) 32767 t hp]
  simp [ubyteNarrow, toInt32]

theorem s1_reparse (old v : Int) (h1 : -128 ≤ v) (h2 : v ≤ 127) :
    integral_io_wrapper_s1_input old (integral_io_wrapper_s1_output v) = (v, false) := by
  have ht : integral_io_wrapper_s1_output v = streamWrite v := by
    unfold integral_io_wrapper_s1_output
    rw [toInt16_eq_self v (by omega) (by omega)]
  rw [ht, s1_input_parsed old v _ (parseDecimal_streamWrite v),
    if_neg (by omega), if_neg (by omega)]

theorem u1_reparse (old v : Int) (h1 : 0 ≤ v) (h2 : v ≤ 255) :
    integral_io_wrapper_u1_input old (integral_io_wrapper_u1_output v) = (v, false) := by
  have ht : integral_io_wrapper_u1_output v = streamWrite v := by
    unfold integral_io_wrapper_u1_output
    rw [toInt16_eq_self v (by omega) (by omega)]
  rw [ht, u1_input_parsed old v _ (parseDecimal_streamWrite v),
    if_neg (by omega), if_neg (by omega), if_neg (by omega)]

/-! ## Helper lemmas: a decimal numeral is never the glyph of its value -/

theorem revDigits_small (fuel n : Nat) (hf : fuel ≠ 0) (h1 : n ≠ 0) (h2 : n ≤ 9) :
    revDigits fuel n = [n] := by
  cases fuel with
  | zero => exact absurd rfl hf
  | succ f =>
    simp only [revDigits, h1, if_false]
    rw [Nat.mod_eq_of_lt (by omega), Nat.div_eq_of_lt (by omega), revDigits_zero]

theorem formatNat_single (n : Nat) (h : n ≤ 9) : formatNat n = [48 + n] := by
  unfold formatNat
  by_cases hn : n = 0
  · simp [hn]
  · rw [if_neg hn, revDigits_small n n hn hn h]
    simp

theorem formatNat_two_digits (n : Nat) (h : 10 ≤ n) : 2 ≤ (formatNat n).length := by
  unfold formatNat
  rw [if_neg (by omega), List.length_map, List.length_reverse]
  cases n with
  | zero => omega
  | succ m =>
    have hstep : revDigits (m + 1) (m + 1) = ((m + 1) % 10) :: revDigits m ((m + 1) / 10) := by
      simp [revDigits]
    rw [hstep]
    simp only [List.length_cons]
    have hne : revDigits m ((m + 1) / 10) ≠ [] :=
      revDigits_ne_nil m ((m + 1) / 10) (by omega) (by omega)
    have := List.length_pos.mpr hne
    omega

theorem formatNat_ne_glyph (n : Nat) : formatNat n ≠ [n] := by
  by_cases h : n ≤ 9
  · rw [formatNat_single n h]
    intro hc
    injection hc with ha hb
    omega
  · intro hc
    have h2 := formatNat_two_digits n (by omega)
    rw [hc] at h2
    simp at h2

/-! ## Claim theorems -/

/-- Claim C1: for a one-byte unsigned target and any text whose promoted-buffer
value `b` satisfies `-max(T) ≤ b < 0` (here max = 255), the narrowing parser
writes the wraparound value `max(T) + b + 1` into the target and signals no
failure. -/
theorem claim_C1 (t : List Nat) (b old : Int) (hp : parseDecimal t = some b)
    (h1 : -255 ≤ b) (h2 : b < 0) :
    integral_io_wrapper_u1_input old t = (255 + b + 1, false) := by
  rw [u1_input_parsed old b t hp,
    if_neg (by omega), if_neg (by omega), if_pos h2]
  exact congrArg (fun x : Int => (x, false)) (by ring)

/-- Witness for C1: parsing the text "-1" (codes [45, 49]) into a one-byte
unsigned target yields 255 with no failure. -/
theorem claim_C1_witness : integral_io_wrapper_u1_input 0 [45, 49] = (255, false) := by
  have h := claim_C1 [45, 49] (-1) 0 (by decide) (by decide) (by decide)
  norm_num at h
  exact h

/-- Claim C2: for a one-byte signed target (max = 127, min = -128) and any
text whose parsed value is `b`: if `b > max` the target is set to max with
failure; if `b < min` the target is set to min with failure; otherwise the
target receives the narrowed value of `b` exactly, with no failure — the
boundary values themselves are accepted exactly. -/
theorem claim_C2 (t : List Nat) (b old : Int) (hp : parseDecimal t = some b) :
    (127 < b → integral_io_wrapper_s1_input old t = (127, true)) ∧
    (b < -128 → integral_io_wrapper_s1_input old t = (-128, true)) ∧
    (-128 ≤ b → b ≤ 127 → integral_io_wrapper_s1_input old t = (b, false)) := by
  rw [s1_input_parsed old b t hp]
  refine ⟨fun h => ?_, fun h => ?_, fun h1 h2 => ?_⟩
  · rw [if_pos h]
  · rw [if_neg (by omega), if_pos h]
  · rw [if_neg (by omega), if_neg (by omega)]

/-- Witness for C2: parsing the text "127" (codes [49, 50, 55]) into a
one-byte signed target yields exactly 127 with no failure. -/
theorem claim_C2_witness : integral_io_wrapper_s1_input 0 [49, 50, 55] = (127, false) :=
  (claim_C2 [49, 50, 55] 127 0 (by decide)).2.2 (by decide) (by decide)

/-- Claim C3: for a one-byte unsigned target (max = 255) and any text whose
parsed value is `b`, the target is clamped to max with failure both when
`b > max` and when `b < 0` with magnitude `-b > max`. -/
theorem claim_C3 (t : List Nat) (b old : Int) (hp : parseDecimal t = some b) :
    (255 < b → integral_io_wrapper_u1_input old t = (255, true)) ∧
    (b < 0 → 255 < -b → integral_io_wrapper_u1_input old t = (255, true)) := by
  rw [u1_input_parsed old b t hp]
  refine ⟨fun h => ?_, fun h1 h2 => ?_⟩
  · rw [if_pos h]
  · rw [if_neg (by omega), if_pos (by omega)]

/-- Witness for C3: parsing the text "300" (codes [51, 48, 48]) into a
one-byte unsigned target clamps to 255 with failure. -/
theorem claim_C3_witness : integral_io_wrapper_u1_input 0 [51, 48, 48] = (255, true) :=
  (claim_C3 [51, 48, 48] 300 0 (by decide)).1 (by decide)

/-- Claim C4 counterexample: the claim that a Text Source failure leaves the
target location unchanged is false.  On the malformed text "abc"
(codes [97, 98, 99]) the source reports failure and zeroes the buffer, and
both one-byte input paths still narrow that buffer and overwrite the target
(previously holding 5) with 0. -/
theorem claim_C4_counterexample :
    parseDecimal [97, 98, 99] = none ∧
    integral_io_wrapper_s1_input 5 [97, 98, 99] = (0, true) ∧
    integral_io_wrapper_u1_input 5 [97, 98, 99] = (0, true) ∧
    (integral_io_wrapper_s1_input 5 [97, 98, 99]).1 ≠ 5 := by decide

/-- Claim C4 (amended): if the Text Source reports a parse failure, the
failure state is propagated, but the narrowing parser still runs: it narrows
the buffer value left by the source (0 under conventional failure semantics)
through the normal bounds-checking branches and writes it to the target,
regardless of the target's previous contents. -/
theorem claim_C4 (old : Int) (t : List Nat) (hp : parseDecimal t = none) :
    integral_io_wrapper_s1_input old t = (0, true) ∧
    integral_io_wrapper_u1_input old t = (0, true) :=
  ⟨s1_input_malformed old t hp, u1_input_malformed old t hp⟩

/-- Witness for C4 (amended): concrete malformed text "abc" with a target
previously holding 5. -/
theorem claim_C4_witness :
    integral_io_wrapper_s1_input 5 [97, 98, 99] = (0, true) ∧
    integral_io_wrapper_u1_input 5 [97, 98, 99] = (0, true) :=
  claim_C4 5 [97, 98, 99] (by decide)

/-- Claim C5 counterexample: the claim that the Width Classifier yields a
signed 16-bit type for one-byte unsigned types is false: the trait
specialisation for one-byte unsigned types yields `std::uint16_t`, an
unsigned 16-bit type. -/
theorem claim_C5_counterexample :
    (integral_io_trait ⟨1, false⟩).signed = false ∧
    integral_io_trait ⟨1, false⟩ = ⟨2, false⟩ := by decide

/-- Claim C5 (amended): the Width Classifier yields `T` itself when
`sizeof(T) > 1`, a signed 16-bit type when `sizeof(T) == 1` and `T` is
signed, and an unsigned 16-bit type when `sizeof(T) == 1` and `T` is
unsigned; being a function, the mapping is total and deterministic. -/
theorem claim_C5 (T : CIntType) :
    (1 < T.size → integral_io_trait T = T) ∧
    (T.size = 1 → T.signed = true → integral_io_trait T = ⟨2, true⟩) ∧
    (T.size = 1 → T.signed = false → integral_io_trait T = ⟨2, false⟩) := by
  refine ⟨fun h => ?_, fun h hs => ?_, fun h hs => ?_⟩ <;>
    unfold integral_io_trait
  · rw [if_neg (by omega)]
  · rw [if_pos h, if_pos (by rw [hs])]
  · rw [if_pos h, if_neg (by rw [hs]; exact Bool.false_ne_true)]

/-- Witness for C5 (amended): the one-byte unsigned descriptor maps to the
unsigned 16-bit descriptor. -/
theorem claim_C5_witness : integral_io_trait ⟨1, false⟩ = ⟨2, false⟩ :=
  (claim_C5 ⟨1, false⟩).2.2 rfl rfl

/-- Claim C6: for an integral type wider than one byte with range
[`lo`, `hi`], parsing the text produced by formatting any representable `v`
yields `v` exactly with no clamping and no failure (direct delegation to the
external collaborator). -/
theorem claim_C6 (lo hi v old : Int) (h1 : lo ≤ v) (h2 : v ≤ hi) :
    integral_io_wrapper_wide_input lo hi old (integral_io_wrapper_wide_output v) =
      (v, false) := by
  unfold integral_io_wrapper_wide_input integral_io_wrapper_wide_output
  exact streamRead_streamWrite lo hi v h1 h2

/-- Witness for C6: round trip of 12345 through a 16-bit-range type. -/
theorem claim_C6_witness :
    integral_io_wrapper_wide_input (-32768) 32767 0
      (integral_io_wrapper_wide_output 12345) = (12345, false) :=
  claim_C6 (-32768) 32767 12345 0 (by decide) (by decide)

/-- Claim C7: formatting a one-byte value through either one-byte output
path produces its decimal numeral text, never the single character whose
code is the value itself (e.g. 65 formats as "65", codes [54, 53], not as
the glyph 'A', code [65]). -/
theorem claim_C7 (v : Int) :
    (0 ≤ v → v ≤ 255 →
      integral_output_wrapper_1_output_u v = formatInt v ∧
      integral_io_wrapper_u1_output v = formatInt v ∧
      integral_output_wrapper_1_output_u v ≠ [v.toNat]) ∧
    (-128 ≤ v → v ≤ 127 →
      integral_output_wrapper_1_output_s v = formatInt v ∧
      integral_io_wrapper_s1_output v = formatInt v) := by
  constructor
  · intro h1 h2
    have hu : integral_output_wrapper_1_output_u v = formatInt v := by
      unfold integral_output_wrapper_1_output_u streamWrite
      rw [toUInt16_eq_self v (by omega) (by omega)]
    refine ⟨hu, ?_, ?_⟩
    · unfold integral_io_wrapper_u1_output streamWrite
      rw [toInt16_eq_self v (by omega) (by omega)]
    · rw [hu]
      unfold formatInt
      rw [if_neg (by omega)]
      exact formatNat_ne_glyph v.toNat
  · intro h1 h2
    refine ⟨?_, ?_⟩
    · unfold integral_output_wrapper_1_output_s streamWrite
      rw [toInt16_eq_self v (by omega) (by omega)]
    · unfold integral_io_wrapper_s1_output streamWrite
      rw [toInt16_eq_self v (by omega) (by omega)]

/-- Witness for C7: the value 65 formats through both unsigned one-byte
output paths as the numeral "65", which is not the glyph with code 65. -/
theorem claim_C7_witness :
    integral_output_wrapper_1_output_u 65 = formatInt 65 ∧
    integral_io_wrapper_u1_output 65 = formatInt 65 ∧
    integral_output_wrapper_1_output_u 65 ≠ [(65 : Int).toNat] :=
  (claim_C7 65).1 (by decide) (by decide)

/-- Claim C8: for either one-byte target, whenever a parse signals failure
and leaves the target clamped at a boundary value, re-parsing the decimal
text of that clamped value succeeds with no failure and reproduces the value
exactly. -/
theorem claim_C8 (old old2 : Int) (t : List Nat) :
    ((integral_io_wrapper_s1_input old t).2 = true →
      ((integral_io_wrapper_s1_input old t).1 = 127 ∨
       (integral_io_wrapper_s1_input old t).1 = -128) →
      integral_io_wrapper_s1_input old2
          (integral_io_wrapper_s1_output (integral_io_wrapper_s1_input old t).1) =
        ((integral_io_wrapper_s1_input old t).1, false)) ∧
    ((integral_io_wrapper_u1_input old t).2 = true →
      ((integral_io_wrapper_u1_input old t).1 = 255 ∨
       (integral_io_wrapper_u1_input old t).1 = 0) →
      integral_io_wrapper_u1_input old2
          (integral_io_wrapper_u1_output (integral_io_wrapper_u1_input old t).1) =
        ((integral_io_wrapper_u1_input old t).1, false)) := by
  constructor
  · intro hf hb
    rcases hb with hb | hb <;> rw [hb] <;>
      exact s1_reparse old2 _ (by omega) (by omega)
  · intro hf hb
    rcases hb with hb | hb <;> rw [hb] <;>
      exact u1_reparse old2 _ (by omega) (by omega)

/-- Witness for C8: parsing "300" (codes [51, 48, 48]) into a one-byte
signed target clamps to 127 with failure; re-parsing the clamp's own text
yields 127 with no failure. -/
theorem claim_C8_witness :
    integral_io_wrapper_s1_input 1
        (integral_io_wrapper_s1_output (integral_io_wrapper_s1_input 0 [51, 48, 48]).1) =
      ((integral_io_wrapper_s1_input 0 [51, 48, 48]).1, false) :=
  (claim_C8 0 1 [51, 48, 48]).1 (by decide) (by decide)

/-- Claim C9: for every one-byte unsigned value in [0, 255], the Write
View's output path (cast through `std::uint16_t`, the trait type) and the
Read/Write View's output path (cast through `std::int16_t`) produce
identical decimal text. -/
theorem claim_C9 (v : Int) (h1 : 0 ≤ v) (h2 : v ≤ 255) :
    integral_output_wrapper_1_output_u v = integral_io_wrapper_u1_output v := by
  unfold integral_output_wrapper_1_output_u integral_io_wrapper_u1_output
  rw [toUInt16_eq_self v (by omega) (by omega), toInt16_eq_self v (by omega) (by omega)]

/-- Witness for C9: both output paths agree at 200. -/
theorem claim_C9_witness :
    integral_output_wrapper_1_output_u 200 = integral_io_wrapper_u1_output 200 :=
  claim_C9 200 (by decide) (by decide)

/-- Claim C10: for every promoted-buffer value in the full signed 16-bit
range (including -32768), the unsigned narrowing path is well-defined: the
magnitude computation `temp * -1` happens in the wider `int` evaluation type
without overflow, the buffer falls into exactly one of the four branches
(overflow clamp / wraparound / large-magnitude clamp / exact fit, with
mutually exclusive guards), and the resulting target value is always a
representable unsigned one-byte value. -/
theorem claim_C10 (b : Int) (h1 : -32768 ≤ b) (h2 : b ≤ 32767) :
    toInt32 (b * (-1)) = -b ∧
    (0 ≤ (ubyteNarrow b).1 ∧ (ubyteNarrow b).1 ≤ 255) ∧
    ((255 < b ∧ ubyteNarrow b = (255, true)) ∨
     ((b < 0 ∧ -b ≤ 255) ∧ ubyteNarrow b = (256 + b, false)) ∨
     ((b < 0 ∧ 255 < -b) ∧ ubyteNarrow b = (255, true)) ∨
     ((0 ≤ b ∧ b ≤ 255) ∧ ubyteNarrow b = (b, false))) := by
  have hm : toInt32 (b * (-1)) = -b := by
    rw [show b * (-1) = -b by ring]
    exact toInt32_eq_self (-b) (by omega) (by omega)
  have hb := ubyteNarrow_parsed b h1 h2
  refine ⟨hm, ?_, ?_⟩
  · rw [hb]
    split_ifs <;> dsimp only <;> constructor <;> omega
  · rw [hb]
    split_ifs with h3 h4 h5
    · exact Or.inl ⟨h3, rfl⟩
    · exact Or.inr (Or.inr (Or.inl ⟨⟨by omega, by omega⟩, rfl⟩))
    · exact Or.inr (Or.inl ⟨⟨h5, by omega⟩, rfl⟩)
    · exact Or.inr (Or.inr (Or.inr ⟨⟨by omega, by omega⟩, rfl⟩))

/-- Witness for C10: the most negative 16-bit buffer value -32768 is
handled without overflow and lands in the large-magnitude clamp branch. -/
theorem claim_C10_witness :
    toInt32 ((-32768 : Int) * (-1)) = -(-32768 : Int) ∧
    (0 ≤ (ubyteNarrow (-32768 : Int)).1 ∧ (ubyteNarrow (-32768 : Int)).1 ≤ 255) ∧
    ((255 < (-32768 : Int) ∧ ubyteNarrow (-32768 : Int) = (255, true)) ∨
     (((-32768 : Int) < 0 ∧ -(-32768 : Int) ≤ 255) ∧
       ubyteNarrow (-32768 : Int) = (256 + (-32768 : Int), false)) ∨
     (((-32768 : Int) < 0 ∧ 255 < -(-32768 : Int)) ∧
       ubyteNarrow (-32768 : Int) = (255, true)) ∨
     ((0 ≤ (-32768 : Int) ∧ (-32768 : Int) ≤ 255) ∧
       ubyteNarrow (-32768 : Int) = ((-32768 : Int), false))) :=
  claim_C10 (-32768) (by decide) (by decide)
